/-
Verification of the wave-viewer numerical core against its specification.

Shallow embedding of the JavaScript sources:
  - js/analysis.js + the extended statistics/integration module (Analysis object)
  - js/fft.js (FFT object)
  - js/responseSpectrum.js (ResponseSpectrum object)
  - js/responseSpectrumWorker.js (worker message handler)
  - js/main.js (computeResponseSpectrumAsync / runAnalysis fallback logic)

JavaScript IEEE-754 doubles are modelled as real numbers (ℝ); overflow,
rounding and NaN are outside the model, so every "within floating
tolerance" statement of the spec becomes an exact equality over ℝ.
JavaScript arrays of numbers are modelled as List ℝ, and reads
data[i] are modelled as List.getD data i 0 (all reads performed by the
translated code are in bounds, so the default is never produced).
Functions that throw are modelled with Except String.
-/
import Mathlib

namespace WaveViewer

/-! ## Analysis module (statistics / integration, from the Analysis object) -/

namespace Analysis

/-- Baseline correction (linear trend removal) by ordinary least squares over
the sample index, from Analysis.removeBaseline.  For fewer than 2 samples the
source returns a fresh copy of the input unchanged. -/
noncomputable def removeBaseline (data : List ℝ) : List ℝ :=
  if data.length < 2 then data
  else
    let n := data.length
    let sumX : ℝ := ((List.range n).map fun i => (i : ℝ)).sum
    let sumY : ℝ := data.sum
    let sumXY : ℝ := ((List.range n).map fun (i : ℕ) => (i : ℝ) * data.getD i 0).sum
    let sumX2 : ℝ := ((List.range n).map fun i => (i : ℝ) * (i : ℝ)).sum
    let slope := ((n : ℝ) * sumXY - sumX * sumY) / ((n : ℝ) * sumX2 - sumX * sumX)
    let intercept := (sumY - slope * sumX) / (n : ℝ)
    (List.range n).map fun (i : ℕ) => data.getD i 0 - (slope * (i : ℝ) + intercept)

/-- Value of the trapezoidal cumulative sum at index i, mirroring the loop
integrated[0] = 0; integrated[i] = integrated[i-1] + (c[i-1]+c[i])*dt/2
of Analysis.integrate. -/
noncomputable def integAt (c : List ℝ) (dt : ℝ) : ℕ → ℝ
  | 0 => 0
  | i + 1 => integAt c dt i + (c.getD i 0 + c.getD (i + 1) 0) * dt / 2

/-- Trapezoidal-rule numerical integration, from Analysis.integrate.
The source defaults the third parameter (detrend / removeBaseline) to true;
callers here always pass it explicitly. -/
noncomputable def integrate (data : List ℝ) (dt : ℝ) (detrend : Bool) : List ℝ :=
  if data.length < 2 then [0]
  else
    let correctedData := if detrend then removeBaseline data else data
    (List.range data.length).map (integAt correctedData dt)

/-- Whether the unit string is a gal-equivalent (cm/s2) unit,
from Analysis.isCmPerSec2Unit. -/
def isCmPerSec2Unit (unit : String) : Bool :=
  unit == "cm/s2" || unit == "cm/s²" || unit == "gal"

/-- Convert acceleration samples to m/s², from Analysis.convertAccelerationToMps2.
The source defaults unit to cm/s2; callers here always pass it explicitly. -/
noncomputable def convertAccelerationToMps2 (acceleration : List ℝ) (unit : String) :
    List ℝ :=
  if isCmPerSec2Unit unit then acceleration.map fun val => val / 100
  else if unit == "g" then acceleration.map fun val => val * 9.80665
  else acceleration

/-- Convert acceleration samples from m/s² back to the given unit,
from Analysis.convertAccelerationFromMps2. -/
noncomputable def convertAccelerationFromMps2 (acceleration : List ℝ) (unit : String) :
    List ℝ :=
  if isCmPerSec2Unit unit then acceleration.map fun val => val * 100
  else if unit == "g" then acceleration.map fun val => val / 9.80665
  else acceleration

end Analysis

/-! ## FFT module (from js/fft.js) -/

namespace FFT

/-- Next power of two, from FFT.nextPowerOf2: 2 ^ ceil(log2 n).
In the source Math.log2(0) = -Infinity so nextPowerOf2(0) = 0. -/
def nextPowerOf2 (n : ℕ) : ℕ :=
  if n = 0 then 0 else 2 ^ Nat.clog 2 n

/-- Zero padding to the next power of two, from FFT.zeroPad: the source
allocates new Array(N).fill(0) and copies the input into its prefix. -/
def zeroPad (data : List ℝ) : List ℝ :=
  data ++ List.replicate (nextPowerOf2 data.length - data.length) 0

/-- Window weight at index i for an n-sample window, from the switch inside
FFT.applyWindow; the default branch (rectangular and unknown types) is 1. -/
noncomputable def windowWeight (windowType : String) (n i : ℕ) : ℝ :=
  if windowType == "hanning" then
    0.5 * (1 - Real.cos (2 * Real.pi * i / ((n : ℝ) - 1)))
  else if windowType == "hamming" then
    0.54 - 0.46 * Real.cos (2 * Real.pi * i / ((n : ℝ) - 1))
  else if windowType == "blackman" then
    0.42 - 0.5 * Real.cos (2 * Real.pi * i / ((n : ℝ) - 1))
      + 0.08 * Real.cos (4 * Real.pi * i / ((n : ℝ) - 1))
  else 1

/-- Apply a window function elementwise, from FFT.applyWindow (the source
writes data[i] * w into a freshly allocated array). -/
noncomputable def applyWindow (data : List ℝ) (windowType : String) : List ℝ :=
  let n := data.length
  (List.range n).map fun (i : ℕ) => data.getD i 0 * windowWeight windowType n i

/-- Inner while loop of the bit-reversal index update in FFT.transform:
while (m >= 1 && j >= m) do (j -= m; m >>= 1) done; returns the final (m, j). -/
def bitrevStep (m j : ℕ) : ℕ × ℕ :=
  if h : 1 ≤ m ∧ m ≤ j then bitrevStep (m / 2) (j - m) else (m, j)
termination_by m
decreasing_by exact Nat.div_lt_self (by omega) (by omega)

/-- Swap elements i and j of a list, modelling the destructuring swap
of real[i]/real[j] in the bit-reversal pass of FFT.transform. -/
def listSwap (l : List ℝ) (i j : ℕ) : List ℝ :=
  (l.set i (l.getD j 0)).set j (l.getD i 0)

/-- Bit-reversal permutation pass of FFT.transform: iterates i upward to n,
swapping when i < j and then updating j by the borrow loop. -/
def bitrevLoop (n : ℕ) (i j : ℕ) (re im : List ℝ) : List ℝ × List ℝ :=
  if h : i < n then
    let re1 := if i < j then listSwap re i j else re
    let im1 := if i < j then listSwap im i j else im
    let mj := bitrevStep (n / 2) j
    bitrevLoop n (i + 1) (mj.2 + mj.1) re1 im1
  else (re, im)
termination_by n - i

/-- Innermost butterfly loop of FFT.transform over i = m, m + 2*mmax, ... < n.
The source always calls this with 1 ≤ mmax; the 0 < mmax guard makes the
recursion well founded. -/
noncomputable def butterflyInner (n mmax : ℕ) (wr wi : ℝ) (i : ℕ)
    (re im : List ℝ) : List ℝ × List ℝ :=
  if h : i < n ∧ 0 < mmax then
    let j := i + mmax
    let tr := wr * re.getD j 0 - wi * im.getD j 0
    let ti := wr * im.getD j 0 + wi * re.getD j 0
    let re1 := (re.set j (re.getD i 0 - tr)).set i (re.getD i 0 + tr)
    let im1 := (im.set j (im.getD i 0 - ti)).set i (im.getD i 0 + ti)
    butterflyInner n mmax wr wi (i + 2 * mmax) re1 im1
  else (re, im)
termination_by n - i
decreasing_by omega

/-- Middle butterfly loop of FFT.transform over m = 0 .. mmax-1.  The source
initializes wr = cos(m * theta), wi = sin(m * theta) afresh for each m (its
trailing twiddle-rotation update is dead, as wr/wi are re-declared per m). -/
noncomputable def butterflyMiddle (n mmax : ℕ) (theta : ℝ) (m : ℕ)
    (re im : List ℝ) : List ℝ × List ℝ :=
  if h : m < mmax then
    let wr := Real.cos (m * theta)
    let wi := Real.sin (m * theta)
    let p := butterflyInner n mmax wr wi m re im
    butterflyMiddle n mmax theta (m + 1) p.1 p.2
  else (re, im)
termination_by mmax - m

/-- Outer butterfly loop of FFT.transform: mmax = 1, 2, 4, ... while mmax < n,
with theta = -pi / mmax per stage.  The source starts at mmax = 1; the
0 < mmax guard makes the recursion well founded. -/
noncomputable def butterflyOuter (n mmax : ℕ) (re im : List ℝ) :
    List ℝ × List ℝ :=
  if h : 0 < mmax ∧ mmax < n then
    let theta := -Real.pi / (mmax : ℝ)
    let p := butterflyMiddle n mmax theta 0 re im
    butterflyOuter n (2 * mmax) p.1 p.2
  else (re, im)
termination_by n - mmax
decreasing_by omega

/-- In-place radix-2 Cooley-Tukey FFT, from FFT.transform, modelled as a pure
function from the contents of the real/imag arrays to their final contents. -/
noncomputable def transform (real imag : List ℝ) : List ℝ × List ℝ :=
  let n := real.length
  if n ≤ 1 then (real, imag)
  else
    let p := bitrevLoop n 0 0 real imag
    butterflyOuter n 1 p.1 p.2

/-- Options record of FFT.amplitudeSpectrum; the source defaults are
windowType = hanning and normalize = true. -/
structure SpectrumOptions where
  windowType : String
  normalize : Bool

/-- Result record of FFT.amplitudeSpectrum. -/
structure Spectrum where
  frequencies : List ℝ
  amplitudes : List ℝ

/-- Amplitude spectrum, from FFT.amplitudeSpectrum: window, zero-pad, FFT on
a copy with zero imaginary part, then magnitudes up to the Nyquist bin
k = 0 .. n/2 inclusive, normalized single-sided when options.normalize. -/
noncomputable def amplitudeSpectrum (data : List ℝ) (samplingRate : ℝ)
    (options : SpectrumOptions) : Spectrum :=
  let processedData := zeroPad (applyWindow data options.windowType)
  let n := processedData.length
  let p := transform processedData (List.replicate n 0)
  let halfN := n / 2
  let df := samplingRate / (n : ℝ)
  let frequencies := (List.range (halfN + 1)).map fun (i : ℕ) => (i : ℝ) * df
  let amplitudes := (List.range (halfN + 1)).map fun (i : ℕ) =>
    let amp := Real.sqrt (p.1.getD i 0 * p.1.getD i 0 + p.2.getD i 0 * p.2.getD i 0)
    if options.normalize then
      if i = 0 ∨ i = halfN then amp / (n : ℝ) else 2 * amp / (n : ℝ)
    else amp
  Spectrum.mk frequencies amplitudes

/-- Result record of FFT.powerSpectrum. -/
structure PowerSpectrumResult where
  frequencies : List ℝ
  powers : List ℝ

/-- Power spectrum, from FFT.powerSpectrum: destructures the amplitude
spectrum and squares each amplitude. -/
noncomputable def powerSpectrum (data : List ℝ) (samplingRate : ℝ)
    (options : SpectrumOptions) : PowerSpectrumResult :=
  let s := amplitudeSpectrum data samplingRate options
  PowerSpectrumResult.mk s.frequencies (s.amplitudes.map fun amp => amp * amp)

/-- A JavaScript number that is either the -Infinity sentinel used to seed the
peak scan of FFT.findPeakFrequency, or an ordinary (finite, real) value. -/
inductive RVal where
  | negInf : RVal
  | fin : ℝ → RVal

/-- The JavaScript comparison amplitudes[i] > maxAmp where maxAmp may be the
-Infinity sentinel: every real is greater than -Infinity. -/
def RVal.ltReal : RVal → ℝ → Prop
  | RVal.negInf, _ => True
  | RVal.fin x, a => x < a

/-- Result record of FFT.findPeakFrequency. -/
structure PeakResult where
  frequency : ℝ
  amplitude : RVal
  index : ℕ

open Classical in
/-- Peak-frequency scan, from FFT.findPeakFrequency: linear scan over the
bins, starting from maxAmp = -Infinity, peakFreq = 0, peakIndex = 0, taking a
bin when frequencies[i] >= minFreq and amplitudes[i] > maxAmp.  The source
default for minFreq is 0.1; callers here always pass it explicitly. -/
noncomputable def findPeakFrequency (frequencies amplitudes : List ℝ)
    (minFreq : ℝ) : PeakResult :=
  let step := fun (st : ℝ × RVal × ℕ) (i : ℕ) =>
    if minFreq ≤ frequencies.getD i 0 ∧ RVal.ltReal st.2.1 (amplitudes.getD i 0)
    then (frequencies.getD i 0, RVal.fin (amplitudes.getD i 0), i)
    else st
  let st := (List.range frequencies.length).foldl step (0, RVal.negInf, 0)
  PeakResult.mk st.1 st.2.1 st.2.2

end FFT

/-! ## ResponseSpectrum module (from js/responseSpectrum.js) -/

namespace ResponseSpectrum

/-- Effective (fully resolved) computation conditions. -/
structure EffConfig where
  periodMin : ℝ
  periodMax : ℝ
  periodDivisions : ℕ
  dampings : List ℝ

/-- Default computation conditions, from ResponseSpectrum.defaultConfig:
periodMin 0.02 s, periodMax 10.0 s, 200 geometric divisions (201 points),
dampings 0.02, 0.03, 0.05. -/
noncomputable def defaultConfig : EffConfig :=
  EffConfig.mk 0.02 10.0 200 [0.02, 0.03, 0.05]

/-- Caller-supplied configuration object: each field may be absent, in which
case the shallow merge with defaultConfig keeps the default. -/
structure Config where
  periodMin : Option ℝ
  periodMax : Option ℝ
  periodDivisions : Option ℕ
  dampings : Option (List ℝ)

/-- The empty configuration object, the source's default argument config = {}. -/
def Config.empty : Config := Config.mk none none none none

/-- The shallow merge options = { ...defaultConfig, ...config } performed at
the start of ResponseSpectrum.compute. -/
noncomputable def mergeConfig (config : Config) : EffConfig :=
  EffConfig.mk
    (config.periodMin.getD defaultConfig.periodMin)
    (config.periodMax.getD defaultConfig.periodMax)
    (config.periodDivisions.getD defaultConfig.periodDivisions)
    (config.dampings.getD defaultConfig.dampings)

/-- The geometric period sequence built by the loop of
ResponseSpectrum.generateLogPeriods: periods[i] = periodMin * ratio^i with
ratio = (periodMax/periodMin)^(1/divisions), both powers taken by Math.pow
(real exponentiation). -/
noncomputable def periodsList (periodMin periodMax : ℝ) (divisions : ℕ) : List ℝ :=
  let ratio := (periodMax / periodMin) ^ ((1 : ℝ) / (divisions : ℝ))
  (List.range (divisions + 1)).map fun (i : ℕ) => periodMin * ratio ^ (i : ℝ)

open Classical in
/-- Geometric (log-uniform) period grid, from
ResponseSpectrum.generateLogPeriods; throws on an invalid period range. -/
noncomputable def generateLogPeriods (periodMin periodMax : ℝ) (divisions : ℕ) :
    Except String (List ℝ) :=
  if periodMin ≤ 0 ∨ periodMax ≤ periodMin ∨ divisions < 1 then
    Except.error "invalid period range settings"
  else
    Except.ok (periodsList periodMin periodMax divisions)

/-- The internal unit normalizer of the response-spectrum module, source name
ResponseSpectrum._convertAccelerationToMps2: only the exact strings gal and g
are converted; anything else is returned as an identity copy. -/
noncomputable def convertAccelerationToMps2 (acceleration : List ℝ)
    (unit : String) : List ℝ :=
  if unit == "gal" then acceleration.map fun value => value / 100
  else if unit == "g" then acceleration.map fun value => value * 9.80665
  else acceleration

/-- Peak responses of a single oscillator: sa, sv, sd. -/
structure SPR where
  sa : ℝ
  sv : ℝ
  sd : ℝ

/-- Running state of the Newmark-beta recurrence inside
ResponseSpectrum._computeSinglePeriodResponse: current displacement, velocity,
relative acceleration and the three running maxima. -/
structure NewmarkState where
  displacement : ℝ
  velocity : ℝ
  relAcceleration : ℝ
  maxSd : ℝ
  maxSv : ℝ
  maxSa : ℝ

/-- One Newmark-beta step i -> i+1 of
ResponseSpectrum._computeSinglePeriodResponse, consuming groundAccel[i+1]. -/
noncomputable def newmarkStep (dt dampingCoeff kHat a0 a1 a2 a3 a4 a5 gamma : ℝ)
    (st : NewmarkState) (gNext : ℝ) : NewmarkState :=
  let loadNext := -gNext
  let pHat := loadNext
    + (a0 * st.displacement) + (a2 * st.velocity) + (a3 * st.relAcceleration)
    + dampingCoeff * ((a1 * st.displacement) + (a4 * st.velocity)
        + (a5 * st.relAcceleration))
  let displacementNext := pHat / kHat
  let relAccelerationNext := (a0 * (displacementNext - st.displacement))
    - (a2 * st.velocity) - (a3 * st.relAcceleration)
  let velocityNext := st.velocity + dt * (((1 - gamma) * st.relAcceleration)
    + (gamma * relAccelerationNext))
  let absSa := |relAccelerationNext + gNext|
  let absSv := |velocityNext|
  let absSd := |displacementNext|
  NewmarkState.mk displacementNext velocityNext relAccelerationNext
    (max st.maxSd absSd) (max st.maxSv absSv) (max st.maxSa absSa)

/-- Peak response of one single-degree-of-freedom system by the Newmark-beta
method (beta = 1/4, gamma = 1/2), from
ResponseSpectrum._computeSinglePeriodResponse.  The source loop visits
groundAcceleration[1..]; an empty record leaves the maxima at 0. -/
noncomputable def computeSinglePeriodResponse (groundAcceleration : List ℝ)
    (dt period damping : ℝ) : SPR :=
  let omega := 2 * Real.pi / period
  let stiffness := omega * omega
  let dampingCoeff := 2 * damping * omega
  let beta : ℝ := 0.25
  let gamma : ℝ := 0.5
  let a0 := 1 / (beta * dt * dt)
  let a1 := gamma / (beta * dt)
  let a2 := 1 / (beta * dt)
  let a3 := 1 / (2 * beta) - 1
  let a4 := gamma / beta - 1
  let a5 := dt * (gamma / (2 * beta) - 1)
  let kHat := stiffness + a0 + a1 * dampingCoeff
  match groundAcceleration with
  | [] => SPR.mk 0 0 0
  | g0 :: rest =>
    let init := NewmarkState.mk 0 0 (-g0) 0 0 0
    let final := rest.foldl
      (newmarkStep dt dampingCoeff kHat a0 a1 a2 a3 a4 a5 gamma) init
    SPR.mk final.maxSa final.maxSv final.maxSd

/-- Per-damping spectra triple, the return object of
ResponseSpectrum._computeForDamping. -/
structure DampingSpectra where
  acceleration : List ℝ
  velocity : List ℝ
  displacement : List ℝ

/-- Response spectra for one damping value across the period grid, from
ResponseSpectrum._computeForDamping. -/
noncomputable def computeForDamping (groundAcceleration : List ℝ) (dt : ℝ)
    (periods : List ℝ) (damping : ℝ) : DampingSpectra :=
  let responses := periods.map fun period =>
    computeSinglePeriodResponse groundAcceleration dt period damping
  DampingSpectra.mk (responses.map SPR.sa) (responses.map SPR.sv)
    (responses.map SPR.sd)

/-- Result record of ResponseSpectrum.compute. -/
structure Result where
  periods : List ℝ
  dampings : List ℝ
  acceleration : List (List ℝ)
  velocity : List (List ℝ)
  displacement : List (List ℝ)

open Classical in
/-- Response-spectrum computation, from ResponseSpectrum.compute.  The source
throws when fewer than 2 samples are given or the sampling rate is not
positive (the guard !samplingRate || samplingRate <= 0; over ℝ this is
samplingRate ≤ 0), and generateLogPeriods throws on an invalid period range;
these thrown errors are the Except.error results. -/
noncomputable def compute (acceleration : List ℝ) (samplingRate : ℝ)
    (unit : String) (config : Config) : Except String Result :=
  if acceleration.length < 2 then
    Except.error "response spectrum needs at least 2 acceleration samples"
  else if samplingRate ≤ 0 then
    Except.error "invalid sampling rate"
  else
    let options := mergeConfig config
    match generateLogPeriods options.periodMin options.periodMax
        options.periodDivisions with
    | Except.error e => Except.error e
    | Except.ok periods =>
      let dampings := options.dampings
      let dt := 1 / samplingRate
      let groundAcceleration := convertAccelerationToMps2 acceleration unit
      let spectra := dampings.map fun damping =>
        computeForDamping groundAcceleration dt periods damping
      Except.ok (Result.mk periods dampings
        (spectra.map DampingSpectra.acceleration)
        (spectra.map DampingSpectra.velocity)
        (spectra.map DampingSpectra.displacement))

end ResponseSpectrum

/-! ## Worker and asynchronous path (from js/responseSpectrumWorker.js and
the computeResponseSpectrumAsync / runAnalysis fallback logic of js/main.js) -/

/-- A worker request message: the fields posted by
computeResponseSpectrumAsync in main.js. -/
structure WorkerRequest where
  acceleration : List ℝ
  samplingRate : ℝ
  unit : String
  config : ResponseSpectrum.Config

/-- A worker response message: ok:true with a result, or ok:false with an
error string. -/
inductive WorkerResponse where
  | ok : ResponseSpectrum.Result → WorkerResponse
  | fail : String → WorkerResponse

/-- The worker message handler of responseSpectrumWorker.js: destructures the
request, forwards it unchanged to ResponseSpectrum.compute, and posts
ok:true/result on success or ok:false/error when compute throws. -/
noncomputable def workerOnMessage (req : WorkerRequest) : WorkerResponse :=
  match ResponseSpectrum.compute req.acceleration req.samplingRate req.unit
      req.config with
  | Except.ok result => WorkerResponse.ok result
  | Except.error e => WorkerResponse.fail e

/-- The offload-with-fallback logic of main.js: computeResponseSpectrumAsync
runs ResponseSpectrum.compute synchronously when no Worker channel exists,
and otherwise resolves with the worker result or rejects; runAnalysis catches
the rejection and falls back to the same synchronous compute call. -/
noncomputable def computeViaWorkerPath (workerAvailable : Bool)
    (req : WorkerRequest) : Except String ResponseSpectrum.Result :=
  if workerAvailable then
    match workerOnMessage req with
    | WorkerResponse.ok result => Except.ok result
    | WorkerResponse.fail _ =>
      ResponseSpectrum.compute req.acceleration req.samplingRate req.unit
        req.config
  else
    ResponseSpectrum.compute req.acceleration req.samplingRate req.unit
      req.config

/-! ## Allocation model for the frame claims

JavaScript arrays live on a heap and are passed by reference.  To state that
a transform leaves the caller's array untouched and returns a fresh array,
the relevant entry points are re-translated in an explicit store-passing
style: the store is the list of allocated arrays, a reference is an index
into it, and new Array(...) / the array literals produced by .map and the
spread operator are fresh allocations.  Each translated body performs reads
of the caller's array and writes only into arrays it allocates itself, which
is exactly what the sources do (every assignment in them targets an array
created inside the callee). -/

/-- The store of allocated arrays. -/
abbrev Store := List (List ℝ)

/-- Read the contents of the array behind a reference. -/
def readRef (s : Store) (r : ℕ) : List ℝ := s.getD r []

/-- Allocate a fresh array holding the given contents, returning its
reference and the extended store. -/
def allocRef (s : Store) (contents : List ℝ) : ℕ × Store :=
  (s.length, s ++ [contents])

/-- Store-passing translation of Analysis.convertAccelerationToMps2: reads
the caller's samples and allocates the converted array (the source builds it
with .map or the spread copy, both fresh allocations). -/
noncomputable def convertAccelerationToMps2S (s : Store) (acc : ℕ)
    (unit : String) : ℕ × Store :=
  allocRef s (Analysis.convertAccelerationToMps2 (readRef s acc) unit)

/-- Store-passing translation of Analysis.removeBaseline: reads the caller's
samples while accumulating the four regression sums and allocates the
detrended array (built in the source by data.map, a fresh allocation). -/
noncomputable def removeBaselineS (s : Store) (data : ℕ) : ℕ × Store :=
  allocRef s (Analysis.removeBaseline (readRef s data))

/-- Store-passing translation of Analysis.integrate: reads the caller's
samples; the output array new Array(n) is a fresh allocation, and every
write integrated[i] = ... targets it. -/
noncomputable def integrateS (s : Store) (data : ℕ) (dt : ℝ) (detrend : Bool) :
    ℕ × Store :=
  allocRef s (Analysis.integrate (readRef s data) dt detrend)

/-- Store-passing translation of FFT.amplitudeSpectrum: reads the caller's
samples once (inside applyWindow); the windowed array, the zero-padded array,
the real copy [...processedData] and the zero-filled imag array are all fresh
allocations, the in-place FFT mutates only the two freshly copied arrays, and
the frequency/amplitude outputs are pushed into two fresh arrays, allocated
here in that order. -/
noncomputable def amplitudeSpectrumS (s : Store) (data : ℕ) (samplingRate : ℝ)
    (options : FFT.SpectrumOptions) : (ℕ × ℕ) × Store :=
  let spec := FFT.amplitudeSpectrum (readRef s data) samplingRate options
  let f := allocRef s spec.frequencies
  let a := allocRef f.2 spec.amplitudes
  ((f.1, a.1), a.2)

/-- Store-passing translation of ResponseSpectrum.compute: reads the caller's
samples once (inside the internal unit conversion, whose .map / spread result
is the only array derived from them and is a fresh allocation); every other
array of the result is built by .map or push into arrays created inside the
call.  The converted ground-acceleration array is the allocation recorded in
the store; the result is returned by value. -/
noncomputable def computeS (s : Store) (acceleration : ℕ) (samplingRate : ℝ)
    (unit : String) (config : ResponseSpectrum.Config) :
    Except String ResponseSpectrum.Result × Store :=
  let vals := readRef s acceleration
  match ResponseSpectrum.compute vals samplingRate unit config with
  | Except.error e => (Except.error e, s)
  | Except.ok result =>
    let g := allocRef s (ResponseSpectrum.convertAccelerationToMps2 vals unit)
    (Except.ok result, g.2)

/-! ## Helper lemmas -/

/-- Mapping a pointwise-identity composition over a list is the identity. -/
theorem map_map_cancel (x : List ℝ) (f g : ℝ → ℝ) (h : ∀ v : ℝ, g (f v) = v) :
    (x.map f).map g = x := by
  rw [List.map_map]
  exact List.map_id'' h x

/-- A left fold whose step fixes the initial state leaves it unchanged. -/
theorem foldl_fixed {α β : Type} (f : α → β → α) (a : α) (l : List β)
    (h : ∀ b ∈ l, f a b = a) : l.foldl f a = a := by
  induction l with
  | nil => rfl
  | cons b t ih =>
    rw [List.foldl_cons, h b (by simp)]
    exact ih fun c hc => h c (by simp [hc])

/-- Reading a valid reference is unchanged by extending the store. -/
theorem readRef_append (s : Store) (t : Store) (r : ℕ) (hr : r < s.length) :
    readRef (s ++ t) r = readRef s r := by
  unfold readRef
  rw [List.getD_append _ _ _ _ hr]

/-! ## Claim theorems -/

/-- C5: unit conversion round-trips: for every sample array x and every unit
string u, Analysis.convertAccelerationFromMps2 applied to
Analysis.convertAccelerationToMps2 x u gives back x; over the real-number
model of doubles the round-trip is exact (gal-family units divide then
multiply by 100, g multiplies then divides by 9.80665, everything else is the
identity). -/
theorem unit_conversion_roundtrip (x : List ℝ) (u : String) :
    Analysis.convertAccelerationFromMps2 (Analysis.convertAccelerationToMps2 x u) u
      = x := by
  unfold Analysis.convertAccelerationFromMps2 Analysis.convertAccelerationToMps2
  by_cases h : Analysis.isCmPerSec2Unit u
  · simp only [h, if_true]
    exact map_map_cancel x _ _ fun v => div_mul_cancel₀ v (by norm_num)
  · simp only [h, if_false, Bool.false_eq_true]
    by_cases hg : u == "g"
    · simp only [hg, if_true]
      exact map_map_cancel x _ _ fun v => mul_div_cancel_right₀ v (by norm_num)
    · simp [hg]

/-- C6: the power spectrum has exactly the amplitude spectrum's frequency
axis, and each power equals the corresponding amplitude squared. -/
theorem powerSpectrum_is_squared_amplitudeSpectrum (x : List ℝ) (fs : ℝ)
    (options : FFT.SpectrumOptions) :
    (FFT.powerSpectrum x fs options).frequencies
        = (FFT.amplitudeSpectrum x fs options).frequencies ∧
      (FFT.powerSpectrum x fs options).powers
        = (FFT.amplitudeSpectrum x fs options).amplitudes.map fun a => a ^ 2 := by
  constructor
  · rfl
  · unfold FFT.powerSpectrum
    exact List.map_congr_left fun a _ => (pow_two a).symm

/-- C4: the offloaded worker path and the synchronous fallback compute the
same function: whether or not a worker channel exists, and whether or not the
worker attempt succeeds, the delivered outcome equals the in-process
ResponseSpectrum.compute call on the same request. -/
theorem worker_path_refines_compute (workerAvailable : Bool)
    (req : WorkerRequest) :
    computeViaWorkerPath workerAvailable req
      = ResponseSpectrum.compute req.acceleration req.samplingRate req.unit
          req.config := by
  unfold computeViaWorkerPath workerOnMessage
  cases workerAvailable with
  | false => simp
  | true =>
    cases h : ResponseSpectrum.compute req.acceleration req.samplingRate
        req.unit req.config with
    | ok r => simp [h]
    | error e => simp [h]

/-- C10: the response-spectrum module's internal unit normalizer converts
only the exact strings gal (divide by 100) and g (multiply by 9.80665) and
returns every other unit unchanged, while Analysis.convertAccelerationToMps2
also divides the cm/s2 spellings by 100, so on unit cm/s2 the two
normalizers send the same input to different SI sequences. -/
theorem responseSpectrum_unit_normalizer_divergence (x : List ℝ) (u : String) :
    ResponseSpectrum.convertAccelerationToMps2 x "gal"
        = (x.map fun v => v / 100) ∧
      ResponseSpectrum.convertAccelerationToMps2 x "g"
        = (x.map fun v => v * 9.80665) ∧
      (u ≠ "gal" → u ≠ "g" → ResponseSpectrum.convertAccelerationToMps2 x u = x) ∧
      Analysis.convertAccelerationToMps2 x "cm/s2" = (x.map fun v => v / 100) ∧
      Analysis.convertAccelerationToMps2 x "cm/s²" = (x.map fun v => v / 100) ∧
      ResponseSpectrum.convertAccelerationToMps2 [(100 : ℝ)] "cm/s2"
        ≠ Analysis.convertAccelerationToMps2 [(100 : ℝ)] "cm/s2" := by
  refine ⟨rfl, rfl, ?_, rfl, rfl, ?_⟩
  · intro hgal hg
    unfold ResponseSpectrum.convertAccelerationToMps2
    rw [if_neg (by simpa using hgal), if_neg (by simpa using hg)]
  · have hL : ResponseSpectrum.convertAccelerationToMps2 [(100 : ℝ)] "cm/s2"
        = [(100 : ℝ)] := by
      unfold ResponseSpectrum.convertAccelerationToMps2
      rw [if_neg (by decide), if_neg (by decide)]
    have hR : Analysis.convertAccelerationToMps2 [(100 : ℝ)] "cm/s2"
        = [(1 : ℝ)] := by
      unfold Analysis.convertAccelerationToMps2
      rw [if_pos (by decide)]
      norm_num
    intro hEq
    rw [hL, hR] at hEq
    simp only [List.cons.injEq, and_true] at hEq
    norm_num at hEq

/-- Witness for C10 at the concrete unit cm/s2 and sample array with the
single entry 100: the response-spectrum normalizer keeps it unchanged. -/
theorem responseSpectrum_unit_normalizer_divergence_witness :
    ResponseSpectrum.convertAccelerationToMps2 [(100 : ℝ)] "cm/s2" = [(100 : ℝ)] :=
  (responseSpectrum_unit_normalizer_divergence [(100 : ℝ)] "cm/s2").2.2.1
    (by decide) (by decide)

/-- C7: Analysis.integrate with at least 2 samples returns a sequence of the
input's length, starting at 0 and obeying the composite trapezoidal
recurrence y[i+1] = y[i] + (c[i] + c[i+1]) * dt / 2, where c is
Analysis.removeBaseline of the input when detrend is true and the input
itself otherwise; with fewer than 2 samples integrate returns [0] and
removeBaseline returns the input unchanged. -/
theorem integrate_trapezoidal_recurrence (x : List ℝ) (dt : ℝ) (detrend : Bool) :
    (2 ≤ x.length →
      (Analysis.integrate x dt detrend).length = x.length ∧
        (Analysis.integrate x dt detrend).getD 0 0 = 0 ∧
        (∀ i : ℕ, i + 1 < x.length →
          (Analysis.integrate x dt detrend).getD (i + 1) 0
            = (Analysis.integrate x dt detrend).getD i 0
              + ((if detrend then Analysis.removeBaseline x else x).getD i 0
                  + (if detrend then Analysis.removeBaseline x else x).getD
                      (i + 1) 0) * dt / 2)) ∧
      (x.length < 2 →
        Analysis.integrate x dt detrend = [0] ∧ Analysis.removeBaseline x = x) := by
  constructor
  · intro h2
    have hnot : ¬x.length < 2 := by omega
    have hint : Analysis.integrate x dt detrend
        = (List.range x.length).map
            (Analysis.integAt (if detrend then Analysis.removeBaseline x else x) dt) := by
      unfold Analysis.integrate
      rw [if_neg hnot]
    have hget : ∀ k : ℕ, k < x.length →
        (Analysis.integrate x dt detrend).getD k 0
          = Analysis.integAt (if detrend then Analysis.removeBaseline x else x) dt k := by
      intro k hk
      rw [hint, List.getD_eq_getElem _ _ (by simpa using hk)]
      simp
    refine ⟨by rw [hint]; simp, ?_, ?_⟩
    · rw [hget 0 (by omega)]
      rfl
    · intro i hi
      rw [hget (i + 1) hi, hget i (by omega)]
      rfl
  · intro hlt
    constructor
    · unfold Analysis.integrate
      rw [if_pos hlt]
    · unfold Analysis.removeBaseline
      rw [if_pos hlt]

/-- Witness for C7 at x = [1, 2, 4], dt = 1, detrend = true: the trapezoidal
recurrence holds at the first step, and the singleton [5] is returned as [0]
by integrate and unchanged by removeBaseline. -/
theorem integrate_trapezoidal_recurrence_witness :
    ((Analysis.integrate [(1 : ℝ), 2, 4] 1 true).getD 1 0
        = (Analysis.integrate [(1 : ℝ), 2, 4] 1 true).getD 0 0
          + ((Analysis.removeBaseline [(1 : ℝ), 2, 4]).getD 0 0
              + (Analysis.removeBaseline [(1 : ℝ), 2, 4]).getD 1 0) * 1 / 2) ∧
      Analysis.integrate [(5 : ℝ)] 1 true = [0] ∧
      Analysis.removeBaseline [(5 : ℝ)] = [(5 : ℝ)] := by
  refine ⟨?_, ?_, ?_⟩
  · have h := ((integrate_trapezoidal_recurrence [(1 : ℝ), 2, 4] 1 true).1
      (by norm_num)).2.2 0 (by norm_num)
    simpa using h
  · exact ((integrate_trapezoidal_recurrence [(5 : ℝ)] 1 true).2 (by norm_num)).1
  · exact ((integrate_trapezoidal_recurrence [(5 : ℝ)] 1 true).2 (by norm_num)).2

/-- C8 counterexample: on a spectrum whose only frequency 0.05 lies below the
default minFreq = 0.1, FFT.findPeakFrequency does not return a zero-valued
amplitude: it returns the scan's initial -Infinity sentinel. -/
theorem findPeakFrequency_no_bin_counterexample :
    (FFT.findPeakFrequency [(0.05 : ℝ)] [(1 : ℝ)] 0.1).amplitude
        = FFT.RVal.negInf ∧
      FFT.RVal.negInf ≠ FFT.RVal.fin 0 := by
  constructor
  · simp only [FFT.findPeakFrequency, List.length_singleton,
      show List.range 1 = [0] from rfl, List.foldl_cons, List.foldl_nil]
    rw [if_neg]
    intro hc
    have h1 := hc.1
    norm_num at h1
  · intro h
    exact FFT.RVal.noConfusion h

/-- C8 (amended): when no bin reaches minFreq, FFT.findPeakFrequency returns
frequency 0 and index 0, but the amplitude field is the scan's initial
-Infinity sentinel rather than a zero amplitude. -/
theorem findPeakFrequency_no_bin_sentinel (frequencies amplitudes : List ℝ)
    (minFreq : ℝ) (h : ∀ f ∈ frequencies, f < minFreq) :
    FFT.findPeakFrequency frequencies amplitudes minFreq
      = FFT.PeakResult.mk 0 FFT.RVal.negInf 0 := by
  simp only [FFT.findPeakFrequency]
  rw [foldl_fixed]
  intro i hi
  rw [if_neg]
  intro hc
  have hmem : frequencies.getD i 0 ∈ frequencies := by
    have hilt : i < frequencies.length := List.mem_range.mp hi
    rw [List.getD_eq_getElem _ _ hilt]
    exact List.getElem_mem hilt
  exact absurd hc.1 (not_le.mpr (h _ hmem))

/-- Witness for C8 (amended) on the concrete all-below-minFreq spectrum
[0.05] / [1] with minFreq 0.1. -/
theorem findPeakFrequency_no_bin_sentinel_witness :
    FFT.findPeakFrequency [(0.05 : ℝ)] [(1 : ℝ)] 0.1
      = FFT.PeakResult.mk 0 FFT.RVal.negInf 0 :=
  findPeakFrequency_no_bin_sentinel [(0.05 : ℝ)] [(1 : ℝ)] 0.1 (by
    intro f hf
    rw [List.mem_singleton] at hf
    rw [hf]
    norm_num)

/-- C3: ResponseSpectrum.compute throws, producing no result, exactly when
the input is invalid: fewer than 2 acceleration samples, a non-positive
sampling rate, or an invalid effective period range (periodMin ≤ 0,
periodMax ≤ periodMin, or periodDivisions < 1 after merging the caller's
config with the defaults); on every other input it returns normally.  In the
translation the throws happen before any numerical work, as the guards
precede the sweep in the source. -/
theorem compute_error_iff_invalid_input (acceleration : List ℝ)
    (samplingRate : ℝ) (unit : String) (config : ResponseSpectrum.Config) :
    (∃ e, ResponseSpectrum.compute acceleration samplingRate unit config
        = Except.error e)
      ↔ (acceleration.length < 2 ∨ samplingRate ≤ 0 ∨
          (ResponseSpectrum.mergeConfig config).periodMin ≤ 0 ∨
          (ResponseSpectrum.mergeConfig config).periodMax
            ≤ (ResponseSpectrum.mergeConfig config).periodMin ∨
          (ResponseSpectrum.mergeConfig config).periodDivisions < 1) := by
  unfold ResponseSpectrum.compute ResponseSpectrum.generateLogPeriods
  by_cases h1 : acceleration.length < 2
  · simp [h1]
  · by_cases h2 : samplingRate ≤ 0
    · simp [h1, h2]
    · by_cases h3 : (ResponseSpectrum.mergeConfig config).periodMin ≤ 0 ∨
          (ResponseSpectrum.mergeConfig config).periodMax
            ≤ (ResponseSpectrum.mergeConfig config).periodMin ∨
          (ResponseSpectrum.mergeConfig config).periodDivisions = 0
      · simp [h1, h2, h3, Nat.lt_one_iff]
      · simp [h1, h2, h3, Nat.lt_one_iff]

/-- C2: for every periodMin > 0, periodMax > periodMin and divisions ≥ 1,
ResponseSpectrum.generateLogPeriods succeeds with a grid of exactly
divisions + 1 entries satisfying periods[i] = periodMin * ratio^i with
ratio = (periodMax/periodMin)^(1/divisions), whose first entry is periodMin,
whose last entry is periodMax (exactly, in the real-number model of doubles),
and which is strictly increasing. -/
theorem generateLogPeriods_grid (periodMin periodMax : ℝ) (divisions : ℕ)
    (h1 : 0 < periodMin) (h2 : periodMin < periodMax) (h3 : 1 ≤ divisions) :
    ∃ ps, ResponseSpectrum.generateLogPeriods periodMin periodMax divisions
        = Except.ok ps ∧
      ps.length = divisions + 1 ∧
      (∀ i : ℕ, i ≤ divisions →
        ps.getD i 0
          = periodMin * ((periodMax / periodMin) ^ ((1 : ℝ) / (divisions : ℝ))) ^ i) ∧
      ps.getD 0 0 = periodMin ∧
      ps.getD divisions 0 = periodMax ∧
      List.Pairwise (· < ·) ps := by
  have hd0 : (0 : ℝ) < (divisions : ℝ) := by
    exact_mod_cast Nat.lt_of_lt_of_le Nat.zero_lt_one h3
  have hbase : (0 : ℝ) < periodMax / periodMin := div_pos (h1.trans h2) h1
  have hratio1 : 1 < (periodMax / periodMin) ^ ((1 : ℝ) / (divisions : ℝ)) := by
    rw [Real.one_lt_rpow_iff_of_pos hbase]
    exact Or.inl ⟨(one_lt_div h1).mpr h2, by positivity⟩
  have hratio0 : 0 < (periodMax / periodMin) ^ ((1 : ℝ) / (divisions : ℝ)) :=
    lt_trans one_pos hratio1
  refine ⟨ResponseSpectrum.periodsList periodMin periodMax divisions, ?_, ?_, ?_, ?_, ?_, ?_⟩
  · unfold ResponseSpectrum.generateLogPeriods
    rw [if_neg]
    push_neg
    exact ⟨h1, h2, by omega⟩
  · unfold ResponseSpectrum.periodsList
    simp
  · intro i hi
    unfold ResponseSpectrum.periodsList
    rw [List.getD_eq_getElem _ _ (by simpa using Nat.lt_succ_of_le hi)]
    simp only [List.getElem_map, List.getElem_range]
    rw [Real.rpow_natCast]
  · unfold ResponseSpectrum.periodsList
    rw [List.getD_eq_getElem _ _ (by simp)]
    simp only [List.getElem_map, List.getElem_range]
    rw [Nat.cast_zero, Real.rpow_zero, mul_one]
  · unfold ResponseSpectrum.periodsList
    rw [List.getD_eq_getElem _ _ (by simp)]
    simp only [List.getElem_map, List.getElem_range]
    rw [← Real.rpow_mul (le_of_lt hbase),
      one_div_mul_cancel (ne_of_gt hd0), Real.rpow_one, mul_comm,
      div_mul_cancel₀ _ (ne_of_gt h1)]
  · unfold ResponseSpectrum.periodsList
    rw [List.pairwise_map]
    refine (List.pairwise_lt_range (divisions + 1)).imp ?_
    intro i j hij
    have hexp : ((periodMax / periodMin) ^ ((1 : ℝ) / (divisions : ℝ))) ^ (i : ℝ)
        < ((periodMax / periodMin) ^ ((1 : ℝ) / (divisions : ℝ))) ^ (j : ℝ) := by
      rw [Real.rpow_lt_rpow_left_iff hratio1]
      exact_mod_cast hij
    exact mul_lt_mul_of_pos_left hexp h1

/-- Witness for C2 at periodMin = 1, periodMax = 2, divisions = 1. -/
theorem generateLogPeriods_grid_witness :
    ∃ ps, ResponseSpectrum.generateLogPeriods 1 2 1 = Except.ok ps ∧
      ps.length = 1 + 1 ∧
      (∀ i : ℕ, i ≤ 1 →
        ps.getD i 0 = 1 * (((2 : ℝ) / 1) ^ ((1 : ℝ) / ((1 : ℕ) : ℝ))) ^ i) ∧
      ps.getD 0 0 = 1 ∧
      ps.getD 1 0 = 2 ∧
      List.Pairwise (· < ·) ps :=
  generateLogPeriods_grid 1 2 1 (by norm_num) (by norm_num) (le_refl 1)

/-- The period grid always has divisions + 1 entries. -/
theorem periodsList_length (periodMin periodMax : ℝ) (divisions : ℕ) :
    (ResponseSpectrum.periodsList periodMin periodMax divisions).length
      = divisions + 1 := by
  unfold ResponseSpectrum.periodsList
  simp

/-- Each per-damping spectrum is aligned index-for-index with the period
grid. -/
theorem computeForDamping_lengths (g : List ℝ) (dt : ℝ) (periods : List ℝ)
    (damping : ℝ) :
    (ResponseSpectrum.computeForDamping g dt periods damping).acceleration.length
        = periods.length ∧
      (ResponseSpectrum.computeForDamping g dt periods damping).velocity.length
        = periods.length ∧
      (ResponseSpectrum.computeForDamping g dt periods damping).displacement.length
        = periods.length := by
  unfold ResponseSpectrum.computeForDamping
  simp

/-- C1: with the default configuration (an empty config object), on any
record of at least 2 samples with a positive sampling rate and any unit
string, ResponseSpectrum.compute succeeds and returns 201 period points, the
damping list [0.02, 0.03, 0.05] in that order, and exactly 3 series per
response quantity, each series aligned index-for-index with the period
grid (length 201). -/
theorem compute_default_config_shape (acceleration : List ℝ)
    (samplingRate : ℝ) (unit : String) (h1 : 2 ≤ acceleration.length)
    (h2 : 0 < samplingRate) :
    ∃ r, ResponseSpectrum.compute acceleration samplingRate unit
        ResponseSpectrum.Config.empty = Except.ok r ∧
      r.periods.length = 201 ∧
      r.dampings = [0.02, 0.03, 0.05] ∧
      r.acceleration.length = 3 ∧
      r.velocity.length = 3 ∧
      r.displacement.length = 3 ∧
      (∀ s ∈ r.acceleration, s.length = 201) ∧
      (∀ s ∈ r.velocity, s.length = 201) ∧
      (∀ s ∈ r.displacement, s.length = 201) := by
  have hgen : ResponseSpectrum.generateLogPeriods 0.02 10.0 200
      = Except.ok (ResponseSpectrum.periodsList 0.02 10.0 200) := by
    unfold ResponseSpectrum.generateLogPeriods
    rw [if_neg]
    push_neg
    norm_num
  simp only [ResponseSpectrum.compute, ResponseSpectrum.mergeConfig,
    ResponseSpectrum.Config.empty, ResponseSpectrum.defaultConfig,
    Option.getD_none]
  rw [if_neg (by omega), if_neg (not_le.mpr h2), hgen]
  refine ⟨_, rfl, ?_, rfl, by simp, by simp, by simp, ?_, ?_, ?_⟩
  · rw [periodsList_length]
  · intro s hs
    rw [List.mem_map] at hs
    obtain ⟨spec, hspec, rfl⟩ := hs
    rw [List.mem_map] at hspec
    obtain ⟨damping, _, rfl⟩ := hspec
    rw [(computeForDamping_lengths _ _ _ _).1, periodsList_length]
  · intro s hs
    rw [List.mem_map] at hs
    obtain ⟨spec, hspec, rfl⟩ := hs
    rw [List.mem_map] at hspec
    obtain ⟨damping, _, rfl⟩ := hspec
    rw [(computeForDamping_lengths _ _ _ _).2.1, periodsList_length]
  · intro s hs
    rw [List.mem_map] at hs
    obtain ⟨spec, hspec, rfl⟩ := hs
    rw [List.mem_map] at hspec
    obtain ⟨damping, _, rfl⟩ := hspec
    rw [(computeForDamping_lengths _ _ _ _).2.2, periodsList_length]

/-- Witness for C1 on the two-sample record [0, 0] at 1 Hz in unit m/s². -/
theorem compute_default_config_shape_witness :
    ∃ r, ResponseSpectrum.compute [(0 : ℝ), 0] 1 "m/s²"
        ResponseSpectrum.Config.empty = Except.ok r ∧
      r.periods.length = 201 ∧
      r.dampings = [0.02, 0.03, 0.05] ∧
      r.acceleration.length = 3 ∧
      r.velocity.length = 3 ∧
      r.displacement.length = 3 ∧
      (∀ s ∈ r.acceleration, s.length = 201) ∧
      (∀ s ∈ r.velocity, s.length = 201) ∧
      (∀ s ∈ r.displacement, s.length = 201) :=
  compute_default_config_shape [(0 : ℝ), 0] 1 "m/s²" (by norm_num) (by norm_num)

/-- C9: in the store-passing translation, none of the core transforms
touches the caller's sample array: after
Analysis.convertAccelerationToMps2, Analysis.removeBaseline,
Analysis.integrate, FFT.amplitudeSpectrum and ResponseSpectrum.compute the
caller's array reads back element-for-element unchanged, and every returned
sequence is a freshly allocated reference distinct from the input. -/
theorem core_transforms_preserve_input (s : Store) (r : ℕ) (u : String)
    (dt : ℝ) (detrend : Bool) (fs samplingRate : ℝ)
    (options : FFT.SpectrumOptions) (config : ResponseSpectrum.Config)
    (hr : r < s.length) :
    (readRef (convertAccelerationToMps2S s r u).2 r = readRef s r ∧
        (convertAccelerationToMps2S s r u).1 ≠ r) ∧
      (readRef (removeBaselineS s r).2 r = readRef s r ∧
        (removeBaselineS s r).1 ≠ r) ∧
      (readRef (integrateS s r dt detrend).2 r = readRef s r ∧
        (integrateS s r dt detrend).1 ≠ r) ∧
      (readRef (amplitudeSpectrumS s r fs options).2 r = readRef s r ∧
        (amplitudeSpectrumS s r fs options).1.1 ≠ r ∧
        (amplitudeSpectrumS s r fs options).1.2 ≠ r) ∧
      readRef (computeS s r samplingRate u config).2 r = readRef s r := by
  have hfresh : s.length ≠ r := ne_of_gt hr
  refine ⟨⟨?_, hfresh⟩, ⟨?_, hfresh⟩, ⟨?_, hfresh⟩, ⟨?_, hfresh, ?_⟩, ?_⟩
  · exact readRef_append s _ r hr
  · exact readRef_append s _ r hr
  · exact readRef_append s _ r hr
  · show readRef (s ++ _ ++ _) r = readRef s r
    rw [readRef_append (s ++ _) _ r (by simpa using Nat.lt_succ_of_lt hr),
      readRef_append s _ r hr]
  · show (s ++ _).length ≠ r
    simp only [List.length_append, List.length_singleton]
    omega
  · simp only [computeS]
    cases hc : ResponseSpectrum.compute (readRef s r) samplingRate u config with
    | error e => rfl
    | ok result => exact readRef_append s _ r hr

/-- Witness for C9 on the one-array store [[1, 2]] with reference 0. -/
theorem core_transforms_preserve_input_witness :
    readRef (convertAccelerationToMps2S [[(1 : ℝ), 2]] 0 "gal").2 0
        = readRef [[(1 : ℝ), 2]] 0 ∧
      readRef (computeS [[(1 : ℝ), 2]] 0 1 "gal" ResponseSpectrum.Config.empty).2 0
        = readRef [[(1 : ℝ), 2]] 0 := by
  have h := core_transforms_preserve_input [[(1 : ℝ), 2]] 0 "gal" 1 true 1 1
    (FFT.SpectrumOptions.mk "hanning" true) ResponseSpectrum.Config.empty
    (by norm_num)
  exact ⟨h.1.1, h.2.2.2.2⟩

end WaveViewer
